import Mathlib

/-!
Verification of the prime-order group abstraction library (bytemare/ecc and its
predecessor generations found in the source tree).

The development shallowly embeds:
* the top-level `Group` dispatcher (`Available`, `get`, `init`, `checkDST`,
  `MakeDST`, `NewScalar`, `NewElement`, `Base`, `HashToGroup`, `EncodeToGroup`,
  `HashToScalar`) from the `crypto` package source,
* the edwards25519 backend wrapper (`Add`, `Sub`, `Mult`, `Copy`, `Decode`,
  `IsIdentity`, `Bytes`) over a parametric model of the external
  filippo.io/edwards25519 point library,
* the NIST backend wrapper (`Point.Add`, `Point.Sub`, `Point.Mult`) whose three
  curves share a single point type,
* the JSON group-id extraction (`jsonReGetField`, `JSONReGetGroup`) from the
  `encoding` package.

Go panics are modelled as `Except.error` with an explicit `Fault`; the external
curve libraries are parameters constrained only by their documented boundary
behaviour (`EdLibSpec`).
-/

/-- Faults raised by the library. Go `panic` values and returned errors are both
represented here; programming faults (panics) and data faults (returned errors)
are distinguished by which position of `Except` carries them in each operation's
model. `decodingElement` carries the message of the wrapped library error. -/
inductive Fault where
  | invalidGroup
  | decafNotSupported
  | groupNotRecognized
  | zeroLenDST
  | paramNilPoint
  | paramNilScalar
  | castElement
  | castScalar
  | identity
  | decodingElement (msg : String)
  | libError (msg : String)
  | paramScalarLength
  | scalarNotCanonical
  deriving DecidableEq, Repr

namespace Crypto

/-- The `internal.Group` backend interface, as used by the dispatcher: the
dispatcher only forwards to these operations. Byte strings are `List Nat`. -/
structure IGroup (El Sc : Type) where
  newScalar : Sc
  newElement : El
  base : El
  hashToGroup : List Nat → List Nat → El
  encodeToGroup : List Nat → List Nat → El
  hashToScalar : List Nat → List Nat → Sc
  ciphersuite : String

/-- The five backend instances the dispatcher's `init` can construct
(`ristretto.New`, `nist.P256`, `nist.P384`, `nist.P521`, `edwards25519.New`). -/
structure Backends (El Sc : Type) where
  ristretto : IGroup El Sc
  p256 : IGroup El Sc
  p384 : IGroup El Sc
  p521 : IGroup El Sc
  edwards : IGroup El Sc

/-- Group identifiers: `Ristretto255Sha512 = 1`, `decaf448Shake256 = 2` (not
implemented), `P256Sha256 = 3`, `P384Sha384 = 4`, `P521Sha512 = 5`,
`Edwards25519Sha512 = 6`, `maxID = 7`. A `Group` is a byte in Go. -/
def maxID : Nat := 7

/-- Embeds `func (g Group) Available() bool { return 0 < g && g < maxID }`. -/
def Available (g : Nat) : Bool := 0 < g && g < maxID

/-- Embeds `func (g Group) init()`: the switch constructing the backend for the
identifier, panicking on the unimplemented decaf slot and unknown identifiers. -/
def init {El Sc : Type} (B : Backends El Sc) (g : Nat) : Except Fault (IGroup El Sc) :=
  match g with
  | 1 => .ok B.ristretto
  | 2 => .error .decafNotSupported
  | 3 => .ok B.p256
  | 4 => .ok B.p384
  | 5 => .ok B.p521
  | 6 => .ok B.edwards
  | _ => .error .groupNotRecognized

/-- Embeds `func (g Group) get() internal.Group`: panic on unavailable id, then
the once-guarded `init` (first-call behaviour). -/
def get {El Sc : Type} (B : Backends El Sc) (g : Nat) : Except Fault (IGroup El Sc) :=
  if Available g then init B g else .error .invalidGroup

/-- Embeds `func checkDST(dst []byte)` with `minLength = 0` and
`recommendedMinLength = 16`: panics only on a zero-length DST. -/
def checkDST (dst : List Nat) : Except Fault Unit :=
  if dst.length < 16 then
    if dst.length = 0 then .error .zeroLenDST else .ok ()
  else .ok ()

/-- Model of Go `%02d`: two-digit zero-padded decimal. -/
def pad2 (n : Nat) : String :=
  if n < 10 then "0" ++ Nat.repr n else Nat.repr n

/-- Model of `fmt.Sprintf("%s-V%02d-CS%02d-%s", app, version, g, ciphersuite)`. -/
def dstFormat (app : String) (version g : Nat) (cs : String) : String :=
  app ++ "-V" ++ pad2 version ++ "-CS" ++ pad2 g ++ "-" ++ cs

/-- Embeds `Group.MakeDST`. -/
def MakeDST {El Sc : Type} (B : Backends El Sc) (g : Nat) (app : String) (version : Nat) :
    Except Fault String :=
  match get B g with
  | .error f => .error f
  | .ok p => .ok (dstFormat app version g p.ciphersuite)

/-- Embeds `Group.NewScalar`. -/
def NewScalar {El Sc : Type} (B : Backends El Sc) (g : Nat) : Except Fault Sc :=
  match get B g with
  | .error f => .error f
  | .ok p => .ok p.newScalar

/-- Embeds `Group.NewElement`. -/
def NewElement {El Sc : Type} (B : Backends El Sc) (g : Nat) : Except Fault El :=
  match get B g with
  | .error f => .error f
  | .ok p => .ok p.newElement

/-- Embeds `Group.Base`. -/
def Base {El Sc : Type} (B : Backends El Sc) (g : Nat) : Except Fault El :=
  match get B g with
  | .error f => .error f
  | .ok p => .ok p.base

/-- Embeds `Group.HashToGroup`: `checkDST` first, then dispatch to the backend's
`HashToGroup`. -/
def HashToGroup {El Sc : Type} (B : Backends El Sc) (g : Nat) (input dst : List Nat) :
    Except Fault El :=
  match checkDST dst with
  | .error f => .error f
  | .ok _ =>
    match get B g with
    | .error f => .error f
    | .ok p => .ok (p.hashToGroup input dst)

/-- Embeds `Group.EncodeToGroup` exactly as written in the source: after
`checkDST` it calls the backend's `HashToGroup` (not `EncodeToGroup`). -/
def EncodeToGroup {El Sc : Type} (B : Backends El Sc) (g : Nat) (input dst : List Nat) :
    Except Fault El :=
  match checkDST dst with
  | .error f => .error f
  | .ok _ =>
    match get B g with
    | .error f => .error f
    | .ok p => .ok (p.hashToGroup input dst)

/-- Embeds `Group.HashToScalar`. -/
def HashToScalar {El Sc : Type} (B : Backends El Sc) (g : Nat) (input dst : List Nat) :
    Except Fault Sc :=
  match checkDST dst with
  | .error f => .error f
  | .ok _ =>
    match get B g with
    | .error f => .error f
    | .ok p => .ok (p.hashToScalar input dst)

end Crypto

/-- A concrete backend set over `Bool` elements and `Bool` scalars, used to
evaluate the dispatcher at concrete inputs. Its `hashToGroup` and
`encodeToGroup` differ on every input, and its ciphersuite strings are the ones
documented for each group. -/
def toyBackends : Crypto.Backends Bool Bool :=
  let mk : String → Crypto.IGroup Bool Bool := fun cs =>
    { newScalar := false
      newElement := false
      base := false
      hashToGroup := fun _ _ => true
      encodeToGroup := fun _ _ => false
      hashToScalar := fun _ _ => true
      ciphersuite := cs }
  { ristretto := mk "ristretto255_XMD:SHA-512_R255MAP_RO_"
    p256 := mk "P256_XMD:SHA-256_SSWU_RO_"
    p384 := mk "P384_XMD:SHA-384_SSWU_RO_"
    p521 := mk "P521_XMD:SHA-512_SSWU_RO_"
    edwards := mk "edwards25519_XMD:SHA-512_ELL2_RO_" }

/-- C1: the public `EncodeToGroup` does not dispatch to the backend's
encode-to-curve path: for every backend set, group id and input it is
definitionally identical to `HashToGroup`, and on a backend whose
`hashToGroup` and `encodeToGroup` differ everywhere, `EncodeToGroup` returns
the `hashToGroup` value, so the two public mappings never differ. -/
theorem encodeToGroup_is_hashToGroup :
    (∀ (El Sc : Type) (B : Crypto.Backends El Sc) (g : Nat) (input dst : List Nat),
      Crypto.EncodeToGroup B g input dst = Crypto.HashToGroup B g input dst) ∧
    Crypto.EncodeToGroup toyBackends 6 [] [1] = .ok true ∧
    toyBackends.edwards.encodeToGroup [] [1] = false ∧
    toyBackends.edwards.hashToGroup [] [1] = true := by
  refine ⟨fun El Sc B g input dst => rfl, rfl, rfl, rfl⟩

/-- C2: the group identifier byte 2 (`decaf448Shake256`) is `Available`, yet
every entry point going through `get` fails fatally with the decaf fault, which
is distinct from the invalid-group fault; `Available` itself holds exactly on
`0 < b < maxID`. -/
theorem decaf_available_but_fatal :
    (∀ b : Nat, Crypto.Available b = true ↔ 0 < b ∧ b < Crypto.maxID) ∧
    Crypto.Available 2 = true ∧
    (∀ (El Sc : Type) (B : Crypto.Backends El Sc),
      Crypto.NewScalar B 2 = .error .decafNotSupported ∧
      Crypto.NewElement B 2 = .error .decafNotSupported ∧
      Crypto.Base B 2 = .error .decafNotSupported) ∧
    Fault.decafNotSupported ≠ Fault.invalidGroup := by
  refine ⟨fun b => ?_, rfl, fun El Sc B => ⟨rfl, rfl, rfl⟩, by decide⟩
  simp [Crypto.Available, Crypto.maxID]

namespace Ed

/-- Model of the external filippo.io/edwards25519 point library at the boundary
the wrapper uses: `NewIdentityPoint`, `Add`, `Subtract`, `ScalarMult`, `Equal`,
`SetBytes`, `Bytes`. `setBytes` returns the decoded point or the library's
error message; `smul` takes the library's scalar type `Sc`. -/
structure EdLib (Point Sc : Type) where
  identityPoint : Point
  add : Point → Point → Point
  sub : Point → Point → Point
  smul : Sc → Point → Point
  equal : Point → Point → Bool
  setBytes : List Nat → Except String Point
  bytes : Point → List Nat

/-- Documented boundary behaviour of the point library: `Equal` decides point
equality, `SetBytes` inverts the canonical `Bytes` encoding, encodings are 32
bytes, and the identity point is neutral for `Add`. -/
structure EdLibSpec {Point Sc : Type} (lib : EdLib Point Sc) : Prop where
  equal_iff : ∀ p q, lib.equal p q = true ↔ p = q
  setBytes_bytes : ∀ p, lib.setBytes (lib.bytes p) = .ok p
  bytes_len : ∀ p, (lib.bytes p).length = 32
  add_ident : ∀ p, lib.add p lib.identityPoint = p

/-- The edwards25519 `Element` wrapper: holds one library point. -/
structure Element (Point : Type) where
  element : Point

/-- The NIST backend's `Point`: the three NIST curves share this single type;
`grp` is the reference to the owning `nist.Group` and `pt` the native point. -/
structure NistPoint (Raw : Type) where
  grp : Nat
  pt : Raw

/-- The `internal.Element` interface: an element of any backend. -/
inductive IElement (EPoint Raw RPoint KPoint : Type) where
  | ed (p : Element EPoint)
  | nist (p : NistPoint Raw)
  | ristretto (p : RPoint)
  | secp (p : KPoint)

/-- The `internal.Scalar` interface: a scalar of any backend. The NIST curves
likewise share one scalar type. -/
inductive IScalar (ESc NSc RSc KSc : Type) where
  | ed (s : ESc)
  | nist (s : NSc)
  | ristretto (s : RSc)
  | secp (s : KSc)

section WrapperOps

variable {Point Sc Raw RPoint KPoint NSc RSc KSc : Type}

/-- Embeds edwards25519 `Element.IsIdentity`:
`e.element.Equal(edwards25519.NewIdentityPoint()) == 1`. -/
def isIdentity (lib : EdLib Point Sc) (e : Element Point) : Bool :=
  lib.equal e.element lib.identityPoint

/-- Embeds edwards25519 `Element.Add`: nil operand panics with the nil-point
fault, a failed cast to `*Element` panics with the cast fault, otherwise a
fresh element holding the library sum is returned. -/
def edAdd (lib : EdLib Point Sc) (e : Element Point)
    (op : Option (IElement Point Raw RPoint KPoint)) : Except Fault (Element Point) :=
  match op with
  | none => .error .paramNilPoint
  | some (.ed x) => .ok ⟨lib.add e.element x.element⟩
  | some _ => .error .castElement

/-- Embeds edwards25519 `Element.Sub`. -/
def edSub (lib : EdLib Point Sc) (e : Element Point)
    (op : Option (IElement Point Raw RPoint KPoint)) : Except Fault (Element Point) :=
  match op with
  | none => .error .paramNilPoint
  | some (.ed x) => .ok ⟨lib.sub e.element x.element⟩
  | some _ => .error .castElement

/-- Embeds edwards25519 `Element.Mult`: note the source panics with the element
cast fault on a failed scalar cast. -/
def edMult (lib : EdLib Point Sc) (e : Element Point)
    (op : Option (IScalar Sc NSc RSc KSc)) : Except Fault (Element Point) :=
  match op with
  | none => .error .paramNilScalar
  | some (.ed s) => .ok ⟨lib.smul s e.element⟩
  | some _ => .error .castElement

/-- Embeds edwards25519 `Element.Decode`: empty input is the nil-point fault, a
library `SetBytes` failure is wrapped as a decode fault, and a decoded identity
is rejected with the identity fault. -/
def Decode (lib : EdLib Point Sc) (e : Element Point) (input : List Nat) :
    Except Fault (Element Point) :=
  if input.length = 0 then .error .paramNilPoint
  else
    match lib.setBytes input with
    | .error msg => .error (.decodingElement msg)
    | .ok p =>
      if lib.equal p lib.identityPoint then .error .identity
      else .ok ⟨p⟩

/-- Embeds edwards25519 `Element.Bytes`. -/
def Bytes (lib : EdLib Point Sc) (e : Element Point) : List Nat :=
  lib.bytes e.element

/-- Modelled from the spec: the backend `newElement` constructor is absent from
the source tree (only its documentation comment remains): it "returns the
identity element (point at infinity)". -/
def newElement (lib : EdLib Point Sc) : Element Point :=
  ⟨lib.identityPoint⟩

end WrapperOps

end Ed

namespace NistB

variable {EPoint Sc Raw RPoint KPoint NSc RSc KSc : Type}

/-- Embeds the NIST backend `Point.Add`: after the nil check, the operand is
cast to the shared `*Point` type (any NIST curve passes), and the receiver's
group arithmetic is applied: `p.newPoint(p.group.NewPoint().Add(p.point,
e.point))`. `rawAdd g` is the receiver group's native addition. -/
def nistAdd (rawAdd : Nat → Raw → Raw → Raw) (p : Ed.NistPoint Raw)
    (op : Option (Ed.IElement EPoint Raw RPoint KPoint)) :
    Except Fault (Ed.NistPoint Raw) :=
  match op with
  | none => .error .paramNilPoint
  | some (.nist e) => .ok ⟨p.grp, rawAdd p.grp p.pt e.pt⟩
  | some _ => .error .castElement

/-- Embeds the NIST backend `Point.Sub`. -/
def nistSub (rawSub : Nat → Raw → Raw → Raw) (p : Ed.NistPoint Raw)
    (op : Option (Ed.IElement EPoint Raw RPoint KPoint)) :
    Except Fault (Ed.NistPoint Raw) :=
  match op with
  | none => .error .paramNilPoint
  | some (.nist e) => .ok ⟨p.grp, rawSub p.grp p.pt e.pt⟩
  | some _ => .error .castElement

/-- Embeds the NIST backend `Point.Mult`: the scalar is cast to the shared
`*Scalar` type; note the source panics with the element cast fault. -/
def nistMult (rawMult : Nat → NSc → Raw → Raw) (p : Ed.NistPoint Raw)
    (op : Option (Ed.IScalar Sc NSc RSc KSc)) :
    Except Fault (Ed.NistPoint Raw) :=
  match op with
  | none => .error .paramNilScalar
  | some (.nist s) => .ok ⟨p.grp, rawMult p.grp s p.pt⟩
  | some _ => .error .castElement

end NistB

namespace Heap

/-- Heap-level operand for the edwards25519 wrapper ops: an edwards element
(an index into the point store), or an element of another backend. -/
inductive HOperand where
  | ed (e : Ed.Element Nat)
  | other

/-- Heap-level scalar operand. -/
inductive HSOperand (Sc : Type) where
  | ed (s : Sc)
  | other

variable {Point Sc : Type}

/-- Heap model of edwards25519 `Element.Add`. Points live in a store;
`edwards25519.NewIdentityPoint()` allocates a fresh cell at the end and the
library `Add` writes the sum into that fresh cell, leaving `e` and `x` alone. -/
def hAdd (lib : Ed.EdLib Point Sc) (e : Ed.Element Nat) (op : Option HOperand)
    (σ : List Point) : Except Fault (Ed.Element Nat × List Point) :=
  match op with
  | none => .error .paramNilPoint
  | some .other => .error .castElement
  | some (.ed x) =>
    let σ1 := σ ++ [lib.identityPoint]
    .ok (⟨σ.length⟩, σ1.set σ.length
      (lib.add (σ1.getD e.element lib.identityPoint) (σ1.getD x.element lib.identityPoint)))

/-- Heap model of edwards25519 `Element.Sub`. -/
def hSub (lib : Ed.EdLib Point Sc) (e : Ed.Element Nat) (op : Option HOperand)
    (σ : List Point) : Except Fault (Ed.Element Nat × List Point) :=
  match op with
  | none => .error .paramNilPoint
  | some .other => .error .castElement
  | some (.ed x) =>
    let σ1 := σ ++ [lib.identityPoint]
    .ok (⟨σ.length⟩, σ1.set σ.length
      (lib.sub (σ1.getD e.element lib.identityPoint) (σ1.getD x.element lib.identityPoint)))

/-- Heap model of edwards25519 `Element.Mult`: `ScalarMult` writes into the
fresh identity cell and reads the receiver's point. -/
def hMult (lib : Ed.EdLib Point Sc) (e : Ed.Element Nat) (op : Option (HSOperand Sc))
    (σ : List Point) : Except Fault (Ed.Element Nat × List Point) :=
  match op with
  | none => .error .paramNilScalar
  | some .other => .error .castElement
  | some (.ed s) =>
    let σ1 := σ ++ [lib.identityPoint]
    .ok (⟨σ.length⟩, σ1.set σ.length (lib.smul s (σ1.getD e.element lib.identityPoint)))

/-- Heap model of edwards25519 `Element.Copy`: a fresh identity point receives
`SetBytes(e.element.Bytes())`; a library error there is a panic. -/
def hCopy (lib : Ed.EdLib Point Sc) (e : Ed.Element Nat) (σ : List Point) :
    Except Fault (Ed.Element Nat × List Point) :=
  let σ1 := σ ++ [lib.identityPoint]
  match lib.setBytes (lib.bytes (σ1.getD e.element lib.identityPoint)) with
  | .error msg => .error (.libError msg)
  | .ok p => .ok (⟨σ.length⟩, σ1.set σ.length p)

end Heap

namespace Fac

variable {Point Sc : Type}

/-- Modelled from the spec: the public `Element` facade (its source file is
absent from the tree; only its tests are present). A `nil` operand to `Add` and
`Subtract` "is defined to behave as the identity element", and to `Multiply`
"as multiplication by zero yielding the identity — this is a deliberate
ergonomic default, not an error". A non-nil operand is delegated to the
backend operation. -/
def facAdd (lib : Ed.EdLib Point Sc) (e : Ed.Element Point)
    (x : Option (Ed.Element Point)) : Ed.Element Point :=
  match x with
  | none => e
  | some x => ⟨lib.add e.element x.element⟩

/-- Modelled from the spec: facade `Subtract` with the `nil`-as-identity
default. -/
def facSub (lib : Ed.EdLib Point Sc) (e : Ed.Element Point)
    (x : Option (Ed.Element Point)) : Ed.Element Point :=
  match x with
  | none => e
  | some x => ⟨lib.sub e.element x.element⟩

/-- Modelled from the spec: facade `Multiply` with the `nil`-as-zero default
yielding the identity. -/
def facMult (lib : Ed.EdLib Point Sc) (e : Ed.Element Point)
    (s : Option Sc) : Ed.Element Point :=
  match s with
  | none => ⟨lib.identityPoint⟩
  | some s => ⟨lib.smul s e.element⟩

end Fac

namespace SCodec

/-- Big-endian bytes of `n`, zero-padded on the left to `len` bytes. -/
def natToBE : Nat → Nat → List Nat
  | 0, _ => []
  | len + 1, n => natToBE len (n / 256) ++ [n % 256]

/-- Big-endian interpretation of a byte string. -/
def beToNat (l : List Nat) : Nat := l.foldl (fun a b => a * 256 + b) 0

/-- Modelled from the spec: scalar encoding (the scalar implementation files
are absent from the tree): "Scalars encode as fixed-length big-endian,
zero-padded to the field's byte length". -/
def scalarEncode (byteLen v : Nat) : List Nat := natToBE byteLen v

/-- Modelled from the spec: scalar decoding: canonical fixed-length big-endian
decode; a zero-length input always fails, a wrong-length input fails, and a
non-canonical (not reduced mod the order) value fails. -/
def scalarDecode (order byteLen : Nat) (input : List Nat) : Except Fault Nat :=
  if input.length = 0 then .error .paramNilScalar
  else if input.length ≠ byteLen then .error .paramScalarLength
  else
    let v := beToNat input
    if v < order then .ok v else .error .scalarNotCanonical

theorem beToNat_append_single (l : List Nat) (b : Nat) :
    beToNat (l ++ [b]) = beToNat l * 256 + b := by
  simp [beToNat, List.foldl_append]

theorem length_natToBE (len n : Nat) : (natToBE len n).length = len := by
  induction len generalizing n with
  | zero => rfl
  | succ k ih => simp [natToBE, ih]

theorem beToNat_natToBE (len n : Nat) :
    beToNat (natToBE len n) = n % 256 ^ len := by
  induction len generalizing n with
  | zero => simp [natToBE, beToNat]; omega
  | succ k ih =>
    rw [natToBE, beToNat_append_single, ih]
    rw [pow_succ, Nat.mul_comm (256 ^ k) 256, Nat.mod_mul]
    ring

end SCodec

namespace JsonE

/-- Errors of `strconv.Atoi`: syntax error or 64-bit range overflow. -/
inductive AtoiErr where
  | atoiSyntax
  | atoiRange
  deriving DecidableEq, Repr

/-- Errors of `JSONReGetGroup`:
`internal.ErrDecodingInvalidJSONEncoding`, `internal.ErrInvalidGroup`, and the
`fmt.Errorf("failed to read Group: %w", err)` wrapper around an Atoi error. -/
inductive JErr where
  | invalidJSONEncoding
  | invalidGroup
  | failedToReadGroup (e : AtoiErr)
  deriving DecidableEq, Repr

/-- Word character of the Go regexp class backslash-w: ASCII letters, digits
and underscore. -/
def charIsWord (c : Char) : Bool := c.isAlphanum || c = '_'

/-- The literal the regexp is built from: the quoted key followed by a colon. -/
def keyChars : List Char := '"' :: 'g' :: 'r' :: 'o' :: 'u' :: 'p' :: '"' :: ':' :: []

/-- Matches `key` at the head of `l`, returning the remainder after it. -/
def matchKeyAfter : List Char → List Char → Option (List Char)
  | [], l => some l
  | _ :: _, [] => none
  | k :: ks, c :: cs => if c = k then matchKeyAfter ks cs else none

/-- Embeds `jsonReGetField("group", s, backslash-w capture)`: leftmost match of
the pattern: the quoted key, a colon, then a maximal nonempty run of word
characters, which is the capture that is returned. -/
def findTok : List Char → Option (List Char)
  | [] => none
  | c :: rest =>
    match matchKeyAfter keyChars (c :: rest) with
    | some after =>
      let tok := after.takeWhile charIsWord
      if tok.isEmpty then findTok rest else some tok
    | none => findTok rest

/-- Largest value of Go's 64-bit `int`. -/
def maxInt64 : Nat := 9223372036854775807

/-- Embeds `strconv.Atoi` restricted to the word-character tokens the capture
can produce: all-digit tokens parse (with the 64-bit range check), anything
else is a syntax error. -/
def goAtoi (tok : List Char) : Except AtoiErr Int :=
  if tok.isEmpty then .error .atoiSyntax
  else if tok.all Char.isDigit then
    let v := tok.foldl (fun a c => a * 10 + (c.toNat - 48)) 0
    if v > maxInt64 then .error .atoiRange else .ok (Int.ofNat v)
  else .error .atoiSyntax

/-- Current-generation maximum group identifier: ids run from
`Ristretto255Sha512 = 1` to `Secp256k1Sha256 = 7`, so `maxID = 8`. -/
def eccMaxID : Nat := 8

/-- Modelled from the spec: the current-generation `Group.Available` used by
`JSONReGetGroup` is absent from the source tree (only its callers and tests
are). Identifiers are "sequential small integers starting at 1, with explicit
reserved/unimplemented slots" and decoders "must reject group values outside
[1, max) or corresponding to unimplemented curves"; the only unimplemented
slot is `decaf448Shake256 = 2`. -/
def eccAvailable (g : Nat) : Bool := (0 < g && g < eccMaxID) && g != 2

/-- Embeds `JSONReGetGroup`: extract the token, `Atoi` it, bound-check it
against `[0, 63]`, convert to a `Group` byte and check availability. -/
def JSONReGetGroup (s : List Char) : Except JErr Nat :=
  match findTok s with
  | none => .error .invalidJSONEncoding
  | some tok =>
    match goAtoi tok with
    | .error e => .error (.failedToReadGroup e)
    | .ok i =>
      if i < 0 ∨ 63 < i then .error .invalidGroup
      else
        let c := i.toNat
        if eccAvailable c then .ok c else .error .invalidGroup

end JsonE

/-- A concrete instance of the external edwards25519 point library interface,
used to evaluate the wrapper code at concrete inputs: two points (the identity
`0` and one other point), 32-byte canonical encodings with the identity
encoded as `0x01` followed by 31 zero bytes. -/
def toyLib : Ed.EdLib (Fin 2) (Fin 2) where
  identityPoint := 0
  add := fun p q => p + q
  sub := fun p q => p - q
  smul := fun s p => s * p
  equal := fun p q => p == q
  setBytes := fun l =>
    if l = 1 :: List.replicate 31 0 then .ok 0
    else if l = 2 :: List.replicate 31 0 then .ok 1
    else .error "edwards25519: invalid point encoding"
  bytes := fun p => (p.val + 1) :: List.replicate 31 0

theorem toyLibSpec : Ed.EdLibSpec toyLib := by
  constructor
  · decide
  · intro p
    fin_cases p <;> rfl
  · intro p
    rfl
  · decide

theorem checkDST_error_iff (dst : List Nat) (f : Fault) :
    Crypto.checkDST dst = .error f ↔ dst.length = 0 ∧ f = .zeroLenDST := by
  unfold Crypto.checkDST
  split_ifs with h1 h2
  · simp [h2, eq_comm]
  · simp [h2]
  · have h0 : dst.length ≠ 0 := by omega
    simp [h0]

theorem checkDST_ok_of_ne (dst : List Nat) (h : dst.length ≠ 0) :
    Crypto.checkDST dst = .ok () := by
  unfold Crypto.checkDST
  split_ifs with h1 h2 <;> simp_all

theorem get_ok {El Sc : Type} (B : Crypto.Backends El Sc) (g : Nat)
    (h1 : Crypto.Available g = true) (h2 : g ≠ 2) :
    ∃ p, Crypto.get B g = .ok p := by
  have hb : 0 < g ∧ g < 7 := by
    simpa [Crypto.Available, Crypto.maxID] using h1
  have hg : g = 1 ∨ g = 3 ∨ g = 4 ∨ g = 5 ∨ g = 6 := by omega
  rcases hg with h | h | h | h | h <;> subst h <;> exact ⟨_, rfl⟩

/-- C3: for every point library satisfying its boundary contract, the backend
`NewElement` is the identity element, decoding the canonical encoding of the
identity element fails with the identity fault, and the identity fault is
distinct from the generic wrapped decode fault. -/
theorem newElement_identity_decode_identity_fault :
    ∀ (Point Sc : Type) (lib : Ed.EdLib Point Sc), Ed.EdLibSpec lib →
      ∀ e : Ed.Element Point,
        Ed.isIdentity lib (Ed.newElement lib) = true ∧
        Ed.Decode lib e (lib.bytes lib.identityPoint) = .error .identity ∧
        ∀ msg, Fault.identity ≠ Fault.decodingElement msg := by
  intro Point Sc lib hspec e
  refine ⟨(hspec.equal_iff _ _).mpr rfl, ?_, fun msg h => by cases h⟩
  unfold Ed.Decode
  simp [hspec.bytes_len, hspec.setBytes_bytes,
    (hspec.equal_iff lib.identityPoint lib.identityPoint).mpr rfl]

theorem newElement_identity_decode_identity_fault_witness :
    Ed.isIdentity toyLib (Ed.newElement toyLib) = true ∧
    Ed.Decode toyLib ⟨0⟩ (toyLib.bytes toyLib.identityPoint) = .error .identity ∧
    ∀ msg, Fault.identity ≠ Fault.decodingElement msg :=
  newElement_identity_decode_identity_fault (Fin 2) (Fin 2) toyLib toyLibSpec ⟨0⟩

/-- C4: in the NIST backend the three curves share one point (and scalar)
type, so a cross-NIST-curve operand passes the type assertion: `Add`, `Sub`
and `Mult` on a receiver of group `g1` with an operand of a different group
`g2` return a result computed with the receiver's group arithmetic instead of
raising the cast fault. Operands whose backend type differs (here: a NIST
operand given to an edwards25519 receiver) do raise the cast fault. -/
theorem nist_cross_curve_returns_result :
    ∀ (EPoint Raw RPoint KPoint Sc NSc RSc KSc : Type)
      (rawAdd rawSub : Nat → Raw → Raw → Raw) (rawMult : Nat → NSc → Raw → Raw)
      (p q : Raw) (s : NSc) (g1 g2 : Nat), g1 ≠ g2 →
      (NistB.nistAdd rawAdd ⟨g1, p⟩
          (some (Ed.IElement.nist ⟨g2, q⟩) : Option (Ed.IElement EPoint Raw RPoint KPoint)) =
        .ok ⟨g1, rawAdd g1 p q⟩) ∧
      (NistB.nistSub rawSub ⟨g1, p⟩
          (some (Ed.IElement.nist ⟨g2, q⟩) : Option (Ed.IElement EPoint Raw RPoint KPoint)) =
        .ok ⟨g1, rawSub g1 p q⟩) ∧
      (NistB.nistMult rawMult ⟨g1, p⟩
          (some (Ed.IScalar.nist s) : Option (Ed.IScalar Sc NSc RSc KSc)) =
        .ok ⟨g1, rawMult g1 s p⟩) ∧
      (∀ (lib : Ed.EdLib EPoint Sc) (e : Ed.Element EPoint) (np : Ed.NistPoint Raw),
        Ed.edAdd lib e
            (some (Ed.IElement.nist np) : Option (Ed.IElement EPoint Raw RPoint KPoint)) =
          .error .castElement ∧
        Ed.edSub lib e
            (some (Ed.IElement.nist np) : Option (Ed.IElement EPoint Raw RPoint KPoint)) =
          .error .castElement) := by
  intro EPoint Raw RPoint KPoint Sc NSc RSc KSc rawAdd rawSub rawMult p q s g1 g2 hne
  exact ⟨rfl, rfl, rfl, fun lib e np => ⟨rfl, rfl⟩⟩

theorem nist_cross_curve_returns_result_witness :
    (NistB.nistAdd (fun _ a b => a + b) ⟨3, (10 : Nat)⟩
        (some (Ed.IElement.nist ⟨4, 20⟩) : Option (Ed.IElement Unit Nat Unit Unit)) =
      .ok ⟨3, 30⟩) ∧
    (Ed.edAdd toyLib ⟨0⟩
        (some (Ed.IElement.nist ⟨4, 20⟩) : Option (Ed.IElement (Fin 2) Nat Unit Unit)) =
      .error .castElement) := by
  have h := nist_cross_curve_returns_result Unit Nat Unit Unit (Fin 2) Nat Unit Unit
    (fun _ a b => a + b) (fun _ a b => a - b) (fun _ a b => b) 10 20 7 3 4 (by decide)
  have h2 := nist_cross_curve_returns_result (Fin 2) Nat Unit Unit (Fin 2) Nat Unit Unit
    (fun _ a b => a + b) (fun _ a b => a - b) (fun _ a b => b) 10 20 7 3 4 (by decide)
  exact ⟨h.1, (h2.2.2.2 toyLib ⟨0⟩ ⟨4, 20⟩).1⟩

/-- C6: a `nil` operand to the facade `Add` and `Subtract` leaves the
receiver's value unchanged (and, when the library's identity law holds, agrees
with adding the identity element), and a `nil` scalar to `Multiply` yields the
identity element; none of these is an error. -/
theorem facade_nil_operand_defaults :
    ∀ (Point Sc : Type) (lib : Ed.EdLib Point Sc) (e : Ed.Element Point),
      Fac.facAdd lib e none = e ∧
      Fac.facSub lib e none = e ∧
      Fac.facMult lib e none = ⟨lib.identityPoint⟩ ∧
      (Ed.EdLibSpec lib → Fac.facAdd lib e (some (Ed.newElement lib)) = e) := by
  intro Point Sc lib e
  refine ⟨rfl, rfl, rfl, fun hspec => ?_⟩
  show (⟨lib.add e.element lib.identityPoint⟩ : Ed.Element Point) = e
  rw [hspec.add_ident]

theorem facade_nil_operand_defaults_witness :
    Fac.facAdd toyLib ⟨1⟩ none = (⟨1⟩ : Ed.Element (Fin 2)) ∧
    Fac.facMult toyLib ⟨1⟩ none = (⟨toyLib.identityPoint⟩ : Ed.Element (Fin 2)) ∧
    Fac.facAdd toyLib ⟨1⟩ (some (Ed.newElement toyLib)) = (⟨1⟩ : Ed.Element (Fin 2)) :=
  ⟨(facade_nil_operand_defaults _ _ toyLib ⟨1⟩).1,
   (facade_nil_operand_defaults _ _ toyLib ⟨1⟩).2.2.1,
   (facade_nil_operand_defaults _ _ toyLib ⟨1⟩).2.2.2 toyLibSpec⟩

/-- C7 counterexample: the identity element is a valid element (it is what
`NewElement` returns), yet decoding its canonical encoding does not return it:
it fails with the identity fault. -/
theorem decode_of_encode_identity_fails :
    Ed.Decode toyLib ⟨0⟩ (Ed.Bytes toyLib (Ed.newElement toyLib)) = .error .identity ∧
    Ed.isIdentity toyLib (Ed.newElement toyLib) = true := by
  exact ⟨rfl, rfl⟩

/-- C7 (amended): decoding the encoding of any valid non-identity element
returns that element, decoding the encoding of a valid scalar returns that
scalar, and decoding a zero-length input always fails. -/
theorem decode_encode_roundtrip :
    ∀ (Point Sc : Type) (lib : Ed.EdLib Point Sc), Ed.EdLibSpec lib →
      (∀ (e : Ed.Element Point) (p : Point), lib.equal p lib.identityPoint = false →
        Ed.Decode lib e (lib.bytes p) = .ok ⟨p⟩) ∧
      (∀ e : Ed.Element Point, Ed.Decode lib e [] = .error .paramNilPoint) ∧
      (∀ order byteLen v : Nat, 0 < byteLen → v < order → order ≤ 256 ^ byteLen →
        SCodec.scalarDecode order byteLen (SCodec.scalarEncode byteLen v) = .ok v) ∧
      (∀ order byteLen : Nat, SCodec.scalarDecode order byteLen [] = .error .paramNilScalar) := by
  intro Point Sc lib hspec
  refine ⟨fun e p hp => ?_, fun e => rfl, fun order byteLen v hb hv ho => ?_,
    fun order byteLen => rfl⟩
  · unfold Ed.Decode
    simp [hspec.bytes_len, hspec.setBytes_bytes, hp]
  · unfold SCodec.scalarDecode SCodec.scalarEncode
    have hlen := SCodec.length_natToBE byteLen v
    have h1 : byteLen ≠ 0 := by omega
    have h2 : SCodec.beToNat (SCodec.natToBE byteLen v) = v := by
      rw [SCodec.beToNat_natToBE]
      exact Nat.mod_eq_of_lt (lt_of_lt_of_le hv ho)
    simp [hlen, h1, h2, hv]

theorem decode_encode_roundtrip_witness :
    Ed.Decode toyLib ⟨0⟩ (toyLib.bytes 1) = .ok (⟨1⟩ : Ed.Element (Fin 2)) ∧
    SCodec.scalarDecode 97 2 (SCodec.scalarEncode 2 5) = .ok 5 :=
  ⟨(decode_encode_roundtrip _ _ toyLib toyLibSpec).1 ⟨0⟩ 1 (by decide),
   (decode_encode_roundtrip _ _ toyLib toyLibSpec).2.2.1 97 2 5 (by decide) (by decide)
     (by decide)⟩

/-- C5 counterexample: on the available group id 2, `HashToScalar` with a
non-empty DST still fails fatally, with a fault that is not the
zero-length-DST fault. -/
theorem hashToScalar_decaf_nonempty_dst_fatal :
    Crypto.HashToScalar toyBackends 2 [] [49] = .error .decafNotSupported ∧
    Fault.decafNotSupported ≠ Fault.zeroLenDST ∧
    ([49] : List Nat).length ≠ 0 :=
  ⟨rfl, by decide, by decide⟩

/-- C5 (amended): for every available group other than the unimplemented decaf
slot (id 2), `HashToGroup`, `EncodeToGroup` and `HashToScalar` fail fatally
exactly when the DST is empty, in which case the fault is the zero-length-DST
fault; every non-empty DST, including one shorter than 16 bytes, is accepted. -/
theorem dst_fatal_iff_empty :
    ∀ (El Sc : Type) (B : Crypto.Backends El Sc) (g : Nat) (input dst : List Nat),
      Crypto.Available g = true → g ≠ 2 →
      (((∃ f, Crypto.HashToGroup B g input dst = .error f) ↔ dst.length = 0) ∧
       (dst.length = 0 → Crypto.HashToGroup B g input dst = .error .zeroLenDST)) ∧
      (((∃ f, Crypto.EncodeToGroup B g input dst = .error f) ↔ dst.length = 0) ∧
       (dst.length = 0 → Crypto.EncodeToGroup B g input dst = .error .zeroLenDST)) ∧
      (((∃ f, Crypto.HashToScalar B g input dst = .error f) ↔ dst.length = 0) ∧
       (dst.length = 0 → Crypto.HashToScalar B g input dst = .error .zeroLenDST)) := by
  intro El Sc B g input dst h1 h2
  obtain ⟨p, hp⟩ := get_ok B g h1 h2
  by_cases hd : dst.length = 0
  · have hcd : Crypto.checkDST dst = .error .zeroLenDST := by
      rw [checkDST_error_iff]
      exact ⟨hd, rfl⟩
    refine ⟨⟨?_, fun _ => ?_⟩, ⟨?_, fun _ => ?_⟩, ⟨?_, fun _ => ?_⟩⟩ <;>
      simp [Crypto.HashToGroup, Crypto.EncodeToGroup, Crypto.HashToScalar, hcd, hd]
  · have hcd : Crypto.checkDST dst = .ok () := checkDST_ok_of_ne dst hd
    refine ⟨⟨?_, fun h => absurd h hd⟩, ⟨?_, fun h => absurd h hd⟩,
      ⟨?_, fun h => absurd h hd⟩⟩ <;>
      simp [Crypto.HashToGroup, Crypto.EncodeToGroup, Crypto.HashToScalar, hcd, hp, hd]

theorem dst_fatal_iff_empty_witness :
    (∃ f, Crypto.HashToGroup toyBackends 3 [] [1] = .error f) ↔
      ([1] : List Nat).length = 0 :=
  ((dst_fatal_iff_empty Bool Bool toyBackends 3 [] [1] rfl (by decide)).1).1

/-- C8 counterexample: `MakeDST` on the available group id 2 fails fatally
instead of returning a DST. -/
theorem makeDST_decaf_fails :
    Crypto.MakeDST toyBackends 2 "app" 1 = .error .decafNotSupported := rfl

/-- C8 (amended): for every available group other than the unimplemented decaf
slot, `MakeDST` succeeds and returns the formatted string
app-V(2-digit version)-CS(2-digit id)-(ciphersuite); in particular with the
P256 ciphersuite string it yields exactly the published value. -/
theorem makeDST_format :
    ∀ (El Sc : Type) (B : Crypto.Backends El Sc) (g : Nat) (app : String) (version : Nat),
      Crypto.Available g = true → g ≠ 2 →
      (∃ cs, Crypto.MakeDST B g app version = .ok (Crypto.dstFormat app version g cs)) ∧
      (B.p256.ciphersuite = "P256_XMD:SHA-256_SSWU_RO_" →
        Crypto.MakeDST B 3 "app" 1 = .ok "app-V01-CS03-P256_XMD:SHA-256_SSWU_RO_") := by
  intro El Sc B g app version h1 h2
  obtain ⟨p, hp⟩ := get_ok B g h1 h2
  constructor
  · exact ⟨p.ciphersuite, by simp [Crypto.MakeDST, hp]⟩
  · intro hcs
    have hm : Crypto.MakeDST B 3 "app" 1 =
        .ok (Crypto.dstFormat "app" 1 3 B.p256.ciphersuite) := rfl
    rw [hm, hcs]
    rfl

theorem makeDST_format_witness :
    (∃ cs, Crypto.MakeDST toyBackends 3 "app" 1 = .ok (Crypto.dstFormat "app" 1 3 cs)) ∧
    Crypto.MakeDST toyBackends 3 "app" 1 = .ok "app-V01-CS03-P256_XMD:SHA-256_SSWU_RO_" :=
  ⟨(makeDST_format Bool Bool toyBackends 3 "app" 1 rfl (by decide)).1,
   (makeDST_format Bool Bool toyBackends 3 "app" 1 rfl (by decide)).2 rfl⟩

/-- C9: `JSONReGetGroup` returns a group exactly when the targeted text match
locates the quoted key "group" followed by a word token that parses as an
integer in the valid range denoting an available group; a missing key/value
pair is the structured JSON-decoding fault, an unparseable or overflowing
token is the wrapped Atoi error, and an out-of-range or unavailable integer is
the invalid-group error. The function is total, so no input panics. -/
theorem jsonReGetGroup_spec :
    (∀ (s : List Char) (g : Nat),
      JsonE.JSONReGetGroup s = .ok g ↔
        ∃ tok, JsonE.findTok s = some tok ∧ JsonE.goAtoi tok = .ok (g : Int) ∧
          g ≤ 63 ∧ JsonE.eccAvailable g = true) ∧
    (∀ s : List Char,
      JsonE.findTok s = none ↔ JsonE.JSONReGetGroup s = .error .invalidJSONEncoding) ∧
    (∀ (s tok : List Char) (e : JsonE.AtoiErr),
      JsonE.findTok s = some tok → JsonE.goAtoi tok = .error e →
        JsonE.JSONReGetGroup s = .error (.failedToReadGroup e)) ∧
    (∀ (s tok : List Char) (i : Int),
      JsonE.findTok s = some tok → JsonE.goAtoi tok = .ok i →
        (i < 0 ∨ 63 < i ∨ JsonE.eccAvailable i.toNat = false) →
        JsonE.JSONReGetGroup s = .error .invalidGroup) := by
  refine ⟨fun s g => ⟨fun h => ?_, fun h => ?_⟩, fun s => ⟨fun h => ?_, fun h => ?_⟩,
    fun s tok e hf ha => ?_, fun s tok i hf ha hbad => ?_⟩
  · unfold JsonE.JSONReGetGroup at h
    cases hf : JsonE.findTok s with
    | none =>
      simp only [hf] at h
      cases h
    | some tok =>
      simp only [hf] at h
      cases ha : JsonE.goAtoi tok with
      | error e =>
        simp only [ha] at h
        cases h
      | ok i =>
        simp only [ha] at h
        by_cases hb : i < 0 ∨ 63 < i
        · rw [if_pos hb] at h
          cases h
        · rw [if_neg hb] at h
          push_neg at hb
          cases hav : JsonE.eccAvailable i.toNat with
          | false =>
            rw [hav] at h
            simp at h
          | true =>
            rw [hav] at h
            simp only [if_true] at h
            have hg : i.toNat = g := by
              cases h
              rfl
            refine ⟨tok, rfl, ?_, by omega, ?_⟩
            · rw [ha]
              have hi : (g : Int) = i := by omega
              rw [hi]
            · rw [← hg]
              exact hav
  · obtain ⟨tok, hf, ha, hg, hav⟩ := h
    unfold JsonE.JSONReGetGroup
    simp only [hf, ha]
    have hb : ¬((g : Int) < 0 ∨ 63 < (g : Int)) := by omega
    rw [if_neg hb]
    have ht : ((g : Int)).toNat = g := rfl
    rw [ht, if_pos hav]
  · unfold JsonE.JSONReGetGroup
    simp only [h]
  · cases hf : JsonE.findTok s with
    | none => rfl
    | some tok =>
      exfalso
      unfold JsonE.JSONReGetGroup at h
      simp only [hf] at h
      cases ha : JsonE.goAtoi tok with
      | error e =>
        simp only [ha] at h
        simp at h
      | ok i =>
        simp only [ha] at h
        by_cases hb : i < 0 ∨ 63 < i
        · rw [if_pos hb] at h
          simp at h
        · rw [if_neg hb] at h
          cases hav : JsonE.eccAvailable i.toNat with
          | false =>
            rw [hav] at h
            simp at h
          | true =>
            rw [hav] at h
            simp at h
  · unfold JsonE.JSONReGetGroup
    simp only [hf, ha]
  · unfold JsonE.JSONReGetGroup
    simp only [hf, ha]
    rcases hbad with hb | hb | hb
    · rw [if_pos (Or.inl hb)]
    · rw [if_pos (Or.inr hb)]
    · by_cases hb2 : i < 0 ∨ 63 < i
      · rw [if_pos hb2]
      · rw [if_neg hb2]
        rw [hb]
        simp

theorem jsonReGetGroup_spec_witness :
    JsonE.JSONReGetGroup ("x\"group\":3 y".toList) = .ok 3 ∧
    JsonE.JSONReGetGroup ("nothing".toList) = .error .invalidJSONEncoding ∧
    JsonE.JSONReGetGroup ("\"group\":zz".toList) = .error (.failedToReadGroup .atoiSyntax) ∧
    JsonE.JSONReGetGroup ("\"group\":9223372036854775808".toList) =
      .error (.failedToReadGroup .atoiRange) ∧
    JsonE.JSONReGetGroup ("\"group\":70".toList) = .error .invalidGroup ∧
    JsonE.JSONReGetGroup ("\"group\":2".toList) = .error .invalidGroup :=
  ⟨(jsonReGetGroup_spec.1 _ 3).mpr ⟨['3'], by decide, rfl, by decide, by decide⟩,
   (jsonReGetGroup_spec.2.1 _).mp (by decide),
   jsonReGetGroup_spec.2.2.1 _ ['z', 'z'] .atoiSyntax (by decide) rfl,
   jsonReGetGroup_spec.2.2.1 _
     ['9', '2', '2', '3', '3', '7', '2', '0', '3', '6', '8', '5', '4', '7', '7', '5', '8', '0', '8']
     .atoiRange (by decide) rfl,
   jsonReGetGroup_spec.2.2.2 _ ['7', '0'] 70 (by decide) rfl
     (Or.inr (Or.inr (by decide))),
   jsonReGetGroup_spec.2.2.2 _ ['2'] 2 (by decide) rfl
     (Or.inr (Or.inr (by decide)))⟩

theorem set_append_frame {α : Type} (σ : List α) (a b : α) (i : Nat)
    (h : i < σ.length) : ((σ ++ [a]).set σ.length b)[i]? = σ[i]? := by
  rw [List.getElem?_set_ne (by omega), List.getElem?_append]
  rw [if_pos h]

/-- C10: in the edwards25519 backend, `Add`, `Sub`, `Mult` and `Copy` allocate
a fresh point (index `σ.length`, distinct from both operands) and write only
to it, so the receiver's and the operand's stored points are unchanged. -/
theorem ed_ops_fresh_no_mutation :
    ∀ (Point Sc : Type) (lib : Ed.EdLib Point Sc) (e x : Ed.Element Nat)
      (σ : List Point) (s : Sc),
      e.element < σ.length → x.element < σ.length →
      (∃ σ2, Heap.hAdd lib e (some (Heap.HOperand.ed x)) σ = .ok (⟨σ.length⟩, σ2) ∧
        σ2[e.element]? = σ[e.element]? ∧ σ2[x.element]? = σ[x.element]?) ∧
      (∃ σ2, Heap.hSub lib e (some (Heap.HOperand.ed x)) σ = .ok (⟨σ.length⟩, σ2) ∧
        σ2[e.element]? = σ[e.element]? ∧ σ2[x.element]? = σ[x.element]?) ∧
      (∃ σ2, Heap.hMult lib e (some (Heap.HSOperand.ed s)) σ = .ok (⟨σ.length⟩, σ2) ∧
        σ2[e.element]? = σ[e.element]? ∧ σ2[x.element]? = σ[x.element]?) ∧
      (Ed.EdLibSpec lib →
        ∃ σ2, Heap.hCopy lib e σ = .ok (⟨σ.length⟩, σ2) ∧
          σ2[e.element]? = σ[e.element]?) ∧
      σ.length ≠ e.element ∧ σ.length ≠ x.element := by
  intro Point Sc lib e x σ s he hx
  refine ⟨⟨_, rfl, set_append_frame σ _ _ _ he, set_append_frame σ _ _ _ hx⟩,
    ⟨_, rfl, set_append_frame σ _ _ _ he, set_append_frame σ _ _ _ hx⟩,
    ⟨_, rfl, set_append_frame σ _ _ _ he, set_append_frame σ _ _ _ hx⟩,
    fun hspec => ?_, by omega, by omega⟩
  unfold Heap.hCopy
  simp only [hspec.setBytes_bytes]
  exact ⟨_, rfl, set_append_frame σ _ _ _ he⟩

theorem ed_ops_fresh_no_mutation_witness :
    (∃ σ2, Heap.hAdd toyLib ⟨0⟩ (some (Heap.HOperand.ed ⟨1⟩)) [0, 1] = .ok (⟨2⟩, σ2) ∧
      σ2[0]? = ([0, 1] : List (Fin 2))[0]? ∧ σ2[1]? = ([0, 1] : List (Fin 2))[1]?) ∧
    (∃ σ2, Heap.hCopy toyLib ⟨0⟩ [0, 1] = .ok (⟨2⟩, σ2) ∧
      σ2[0]? = ([0, 1] : List (Fin 2))[0]?) := by
  have h := ed_ops_fresh_no_mutation (Fin 2) (Fin 2) toyLib ⟨0⟩ ⟨1⟩ [0, 1] 1
    (by decide) (by decide)
  exact ⟨h.1, h.2.2.2.1 toyLibSpec⟩
